import Mathlib

/-!
Shallow embedding of the statistical core of `github-repo-analyzer`
(`src/predictor.py`): the four forecasting strategies, `TrendPredictor`,
`ProjectHealthPredictor._calculate_activity_scores`, `SeasonalAnalyzer`
and `AnomalyDetector`.

Modelling conventions:
* Python numbers are modelled as exact rationals (`ℚ`); the only
  irrational operation in the source, `math.sqrt`, is modelled by
  `Real.sqrt`, so every value derived from a standard deviation lives
  in `ℝ`.
* Display-only rounding (`round(x, k)` on values that are merely stored
  in the returned dictionaries) is not modelled.
* The uncaught `KeyError` that `analyze_seasonality` can raise (the
  `except` clause only catches `ValueError` and `IndexError`) is
  modelled with `Except Int`, the payload being the offending month.
-/

/-- Python's `l[-n:]`: the last `n` elements of `l` (all of `l` when `l` is
shorter than `n`; `Nat` subtraction gives exactly that). -/
def lastN (n : Nat) (l : List α) : List α := l.drop (l.length - n)

/-- `SimpleMovingAverage.__init__(window_size=3)`. -/
structure SimpleMovingAverage where
  window_size : Nat := 3

/-- The `for _ in range(periods)` loop of `SimpleMovingAverage.predict`:
`working` is the growing working copy of the series; each step appends the
mean of the last `window` values both to the forecast and to `working`. -/
def smaLoop (window : Nat) (working : List ℚ) : Nat → List ℚ
  | 0 => []
  | periods + 1 =>
    let recent := lastN window working
    let pred := recent.sum / (recent.length : ℚ)
    pred :: smaLoop window (working ++ [pred]) periods

/-- `SimpleMovingAverage.predict(data, periods)`. -/
def SimpleMovingAverage.predict (self : SimpleMovingAverage) (data : List ℚ)
    (periods : Nat) : List ℚ :=
  if data.length < self.window_size then
    if data = [] then List.replicate periods 0
    else List.replicate periods (data.sum / (data.length : ℚ))
  else
    smaLoop self.window_size data periods

/-- `ExponentialSmoothing.__init__(alpha=0.3)`. -/
structure ExponentialSmoothing where
  alpha : ℚ := 0.3

/-- `ExponentialSmoothing.predict(data, periods)`: fold the smoothing update
over `data[1:]` starting from `data[0]`, and repeat the final level. -/
def ExponentialSmoothing.predict (self : ExponentialSmoothing) (data : List ℚ)
    (periods : Nat) : List ℚ :=
  match data with
  | [] => List.replicate periods 0
  | d :: rest =>
    let smoothed := rest.foldl (fun s v => self.alpha * v + (1 - self.alpha) * s) d
    List.replicate periods smoothed

/-- `LinearRegression.fit_predict(data, periods)`, returning
`(predictions, slope, intercept)`. -/
def LinearRegression.fit_predict (data : List ℚ) (periods : Nat) :
    List ℚ × ℚ × ℚ :=
  if data.length < 2 then
    (List.replicate periods (data.headD 0), 0, data.headD 0)
  else
    let n := data.length
    let x_mean : ℚ := ((List.range n).map fun (i : Nat) => (i : ℚ)).sum / (n : ℚ)
    let y_mean : ℚ := data.sum / (n : ℚ)
    let numerator :=
      ((List.range n).map fun (i : Nat) => ((i : ℚ) - x_mean) * (data.getD i 0 - y_mean)).sum
    let denominator := ((List.range n).map fun (i : Nat) => ((i : ℚ) - x_mean) ^ 2).sum
    if denominator = 0 then
      (List.replicate periods y_mean, 0, y_mean)
    else
      let slope := numerator / denominator
      let intercept := y_mean - slope * x_mean
      (((List.range periods).map fun (i : Nat) =>
          max 0 (slope * ((n : ℚ) + (i : ℚ)) + intercept)), slope, intercept)

/-- `LinearRegression.calculate_r_squared(data, slope, intercept)`. -/
def LinearRegression.calculate_r_squared (data : List ℚ) (slope intercept : ℚ) : ℚ :=
  if data.length < 2 then 0
  else
    let n := data.length
    let y_mean : ℚ := data.sum / (n : ℚ)
    let ss_tot := (data.map fun y => (y - y_mean) ^ 2).sum
    if ss_tot = 0 then 1
    else
      let ss_res :=
        ((List.range n).map fun (i : Nat) =>
          (data.getD i 0 - (slope * (i : ℚ) + intercept)) ^ 2).sum
      1 - ss_res / ss_tot

/-- `HoltWinters.__init__(alpha=0.5, beta=0.5)`. -/
structure HoltWinters where
  alpha : ℚ := 0.5
  beta : ℚ := 0.5

/-- `HoltWinters.predict(data, periods)`: double exponential smoothing.
The `for i in range(1, len(data))` update loop is a fold over `data[1:]`
on the `(level, trend)` state, and forecast step `i` (1-indexed) is
`level + i * trend` clamped to be non-negative. -/
def HoltWinters.predict (self : HoltWinters) (data : List ℚ) (periods : Nat) :
    List ℚ :=
  match data with
  | [] => List.replicate periods 0
  | [d] => List.replicate periods d
  | d0 :: d1 :: rest =>
    let st := (d1 :: rest).foldl
      (fun (lt : ℚ × ℚ) v =>
        let level := self.alpha * v + (1 - self.alpha) * (lt.1 + lt.2)
        (level, self.beta * (level - lt.1) + (1 - self.beta) * lt.2))
      (d0, d1 - d0)
    (List.range periods).map fun (i : Nat) => max 0 (st.1 + ((i : ℚ) + 1) * st.2)

/-- The `PredictionResult` dataclass.  `confidence_interval` lives in `ℝ`
because it is derived from `math.sqrt`. -/
structure PredictionResult where
  metric_name : String
  current_value : ℚ
  predicted_values : List ℚ
  prediction_dates : List String
  confidence_interval : ℝ × ℝ
  trend : String
  trend_strength : ℚ
  model_used : String

/-- `TrendPredictor.analyze_trend(data)`, returning
`(trend_direction, trend_strength)`. -/
def TrendPredictor.analyze_trend (data : List ℚ) : String × ℚ :=
  if data.length < 2 then ("stable", 0)
  else
    let fit := LinearRegression.fit_predict data 1
    let slope := fit.2.1
    let intercept := fit.2.2
    let r_squared := LinearRegression.calculate_r_squared data slope intercept
    let mean_value : ℚ := if data = [] then 1 else data.sum / (data.length : ℚ)
    let relative_slope := if mean_value ≠ 0 then slope / mean_value else 0
    let direction :=
      if relative_slope > 0.05 then "increasing"
      else if relative_slope < -0.05 then "decreasing"
      else "stable"
    (direction, min 1 (|relative_slope| * r_squared * 10))

/-- `TrendPredictor._calculate_confidence_interval(data, predictions)`. -/
noncomputable def TrendPredictor.calculate_confidence_interval
    (data predictions : List ℚ) : ℝ × ℝ :=
  if data.length < 2 then
    let avg : ℚ := predictions.headD 0
    ((avg : ℝ) * 0.8, (avg : ℝ) * 1.2)
  else
    let mean : ℚ := data.sum / (data.length : ℚ)
    let variance : ℚ := (data.map fun x => (x - mean) ^ 2).sum / (data.length : ℚ)
    let std_dev : ℝ := Real.sqrt (variance : ℝ)
    let pred_mean : ℚ := if predictions = [] then 0
      else predictions.sum / (predictions.length : ℚ)
    (max 0 ((pred_mean : ℝ) - 2 * std_dev), (pred_mean : ℝ) + 2 * std_dev)

/-- `TrendPredictor.predict(data, periods, method)`.  The strategy instances
carried by `TrendPredictor.__init__` all use their default parameters. -/
noncomputable def TrendPredictor.predict (data : List ℚ) (periods : Nat)
    (method : String) : PredictionResult :=
  if data = [] then
    { metric_name := "unknown", current_value := 0,
      predicted_values := List.replicate periods 0, prediction_dates := [],
      confidence_interval := (0, 0), trend := "stable", trend_strength := 0,
      model_used := "none" }
  else
    let t := TrendPredictor.analyze_trend data
    let method1 :=
      if method = "auto" then
        if data.length < 5 then "sma"
        else if t.2 > 0.5 then "holt_winters"
        else "linear"
      else method
    let pm : List ℚ × String :=
      if method1 = "sma" then
        (SimpleMovingAverage.predict {} data periods, "Simple Moving Average")
      else if method1 = "exp" then
        (ExponentialSmoothing.predict {} data periods, "Exponential Smoothing")
      else if method1 = "linear" then
        ((LinearRegression.fit_predict data periods).1, "Linear Regression")
      else if method1 = "holt_winters" then
        (HoltWinters.predict {} data periods, "Holt-Winters")
      else
        (SimpleMovingAverage.predict {} data periods, "Simple Moving Average")
    { metric_name := "", current_value := data.getLastD 0,
      predicted_values := pm.1, prediction_dates := [],
      confidence_interval := TrendPredictor.calculate_confidence_interval data pm.1,
      trend := t.1, trend_strength := t.2, model_used := pm.2 }

/-- `ProjectHealthPredictor._calculate_activity_scores`, modelled on the list
of monthly commit counts already extracted from the nested analysis
dictionary (`monthly_distribution.distribution.values()`, in order). -/
def ProjectHealthPredictor.calculate_activity_scores (monthly : List ℚ) : List ℚ :=
  if monthly = [] then []
  else
    let max_commits : ℚ := (monthly.max?).getD 1
    monthly.map fun count => count / max_commits * 100

/-- Python's `s.split('-')` on the character list of `s`. -/
def splitDash : List Char → List (List Char)
  | [] => [[]]
  | c :: cs =>
    let rest := splitDash cs
    if c = '-' then [] :: rest
    else (c :: rest.headD []) :: rest.tail

/-- A non-empty all-digit character list read as a number. -/
def digitsToNat? (cs : List Char) : Option Nat :=
  if cs ≠ [] ∧ cs.all Char.isDigit then
    some (cs.foldl (fun n c => 10 * n + (c.toNat - 48)) 0)
  else none

/-- Python's `int(s)` for an optionally signed decimal literal (`none`
models the raised `ValueError`; surrounding whitespace and `_` separators,
which CPython also tolerates, are not modelled). -/
def strToInt? (cs : List Char) : Option Int :=
  match cs with
  | '-' :: rest => (digitsToNat? rest).map fun n => -(n : Int)
  | '+' :: rest => (digitsToNat? rest).map fun n => (n : Int)
  | _ => (digitsToNat? cs).map fun n => (n : Int)

/-- `int(date_str.split('-')[1])` from `analyze_seasonality`; `none` models
the `ValueError` or `IndexError` that the surrounding `except` clause
catches and skips. -/
def monthOf (date_str : String) : Option Int :=
  ((splitDash date_str.toList)[1]?).bind strToInt?

/-- The grouping loop of `analyze_seasonality` building `month_totals`.
`Except.error m` models the uncaught `KeyError: m` raised by
`month_totals[month]` when the parsed month lies outside the keys 1..12;
otherwise the function for month `m` returns the values recorded for `m`,
in input order. -/
def groupMonths : List (String × ℚ) → Except Int (Int → List ℚ)
  | [] => .ok fun _ => []
  | (k, v) :: rest =>
    match monthOf k with
    | none => groupMonths rest
    | some m =>
      if 1 ≤ m ∧ m ≤ 12 then
        (groupMonths rest).map fun f n => if n = m then v :: f n else f n
      else .error m

/-- The `month_names` list of `analyze_seasonality` (index 0 unused). -/
def month_names : List String :=
  ["", "一月", "二月", "三月", "四月", "五月", "六月",
   "七月", "八月", "九月", "十月", "十一月", "十二月"]

open Classical in
/-- `SeasonalAnalyzer._describe_pattern(peak_months, has_seasonality)`. -/
noncomputable def SeasonalAnalyzer.describe_pattern (peak_months : List Int)
    (has_seasonality : Prop) : String :=
  if ¬ has_seasonality then "活动分布相对均匀，无明显季节性"
  else
    let winter : List Int := [12, 1, 2]
    let spring : List Int := [3, 4, 5]
    let summer : List Int := [6, 7, 8]
    let fall : List Int := [9, 10, 11]
    if (peak_months.take 2).all fun m => winter.contains m then "活动高峰集中在冬季"
    else if (peak_months.take 2).all fun m => spring.contains m then "活动高峰集中在春季"
    else if (peak_months.take 2).all fun m => summer.contains m then "活动高峰集中在夏季"
    else if (peak_months.take 2).all fun m => fall.contains m then "活动高峰集中在秋季"
    else "存在季节性波动，但无明显的季节性集中"

/-- The full-detail part of the dictionary returned by
`analyze_seasonality`.  `coefficient_of_variation` involves `math.sqrt`
and lives in `ℝ`; `has_seasonality` (`cv > 0.2`) is therefore a `Prop`. -/
structure SeasonalityDetails where
  coefficient_of_variation : ℝ
  monthly_averages : List (String × ℚ)
  peak_months : List String
  low_months : List String
  pattern_description : String

/-- The dictionary returned by `SeasonalAnalyzer.analyze_seasonality`: the
degenerate early returns carry only `{'has_seasonality': False}`
(`details := none`). -/
structure SeasonalityReport where
  has_seasonality : Prop
  details : Option SeasonalityDetails

/-- `SeasonalAnalyzer.analyze_seasonality(monthly_data)`.  The `monthly_data`
dictionary (insertion-ordered `{'YYYY-MM': count}`) is modelled as an
association list in iteration order. -/
noncomputable def SeasonalAnalyzer.analyze_seasonality
    (monthly_data : List (String × ℚ)) : Except Int SeasonalityReport :=
  if monthly_data = [] then .ok ⟨False, none⟩
  else
    match groupMonths monthly_data with
    | .error m => .error m
    | .ok month_totals =>
      let month_avgs : List (Int × ℚ) := (List.range' 1 12).filterMap fun (m : Nat) =>
        let values := month_totals (m : Int)
        if values = [] then none
        else some ((m : Int), values.sum / (values.length : ℚ))
      if month_avgs = [] then .ok ⟨False, none⟩
      else
        let avg_values := month_avgs.map fun p => p.2
        let mean : ℚ := avg_values.sum / (avg_values.length : ℚ)
        if mean = 0 then .ok ⟨False, none⟩
        else
          let variance : ℚ :=
            (avg_values.map fun x => (x - mean) ^ 2).sum / (avg_values.length : ℚ)
          let cv : ℝ := Real.sqrt (variance : ℝ) / (mean : ℝ)
          let sorted_months := month_avgs.mergeSort fun a b => decide (b.2 ≤ a.2)
          let peak_months := (sorted_months.take 3).map fun p => p.1
          let low_months := (lastN 3 sorted_months).map fun p => p.1
          let has_seasonality : Prop := cv > 0.2
          let details : SeasonalityDetails :=
            { coefficient_of_variation := cv,
              monthly_averages := month_avgs.map fun p =>
                (month_names.getD p.1.toNat "", p.2),
              peak_months := peak_months.map fun m => month_names.getD m.toNat "",
              low_months := low_months.map fun m => month_names.getD m.toNat "",
              pattern_description :=
                SeasonalAnalyzer.describe_pattern peak_months has_seasonality }
          .ok ⟨has_seasonality, some details⟩

/-- `AnomalyDetector.__init__(sensitivity=2.0)`. -/
structure AnomalyDetector where
  sensitivity : ℚ := 2

/-- One entry of the `anomalies` list built by `detect_anomalies`. -/
structure AnomalyRecord where
  index : Nat
  value : ℚ
  z_score : ℝ
  type : String
  severity : String
  label : Option String

/-- The `statistics` part of the dictionary returned by `detect_anomalies`. -/
structure AnomalyStatistics where
  mean : ℚ
  std_dev : ℝ
  threshold : ℝ

/-- The dictionary returned by `detect_anomalies`; the insufficient-data and
zero-deviation early returns carry no `statistics` entry. -/
structure AnomalyReport where
  anomalies : List AnomalyRecord
  has_anomalies : Bool
  statistics : Option AnomalyStatistics

/-- The body of the `for i, value in enumerate(data)` loop of
`detect_anomalies`: the record built for `(i, value)` when its z-score
exceeds the sensitivity, `none` otherwise. -/
noncomputable def AnomalyDetector.flag (self : AnomalyDetector) (mean : ℚ)
    (std_dev : ℝ) (labels : Option (List String)) (p : Nat × ℚ) :
    Option AnomalyRecord :=
  let z_score : ℝ := ((p.2 : ℝ) - (mean : ℝ)) / std_dev
  if |z_score| > (self.sensitivity : ℝ) then
    some { index := p.1, value := p.2, z_score := z_score,
           type := if z_score > 0 then "spike" else "drop",
           severity := if |z_score| > 3 then "high" else "medium",
           label := labels.bind fun ls => ls[p.1]? }
  else none

/-- `AnomalyDetector.detect_anomalies(data, labels)`. -/
noncomputable def AnomalyDetector.detect_anomalies (self : AnomalyDetector)
    (data : List ℚ) (labels : Option (List String)) : AnomalyReport :=
  if data.length < 3 then { anomalies := [], has_anomalies := false, statistics := none }
  else
    let mean : ℚ := data.sum / (data.length : ℚ)
    let variance : ℚ := (data.map fun x => (x - mean) ^ 2).sum / (data.length : ℚ)
    let std_dev : ℝ := Real.sqrt (variance : ℝ)
    if std_dev = 0 then { anomalies := [], has_anomalies := false, statistics := none }
    else
      let anomalies := data.enum.filterMap (self.flag mean std_dev labels)
      let stats : AnomalyStatistics :=
        { mean := mean, std_dev := std_dev,
          threshold := (mean : ℝ) + (self.sensitivity : ℝ) * std_dev }
      { anomalies := anomalies, has_anomalies := !anomalies.isEmpty,
        statistics := some stats }

/-- One entry of the `breaks` list built by `detect_trend_break`
(`change_rate` is stored as a percentage, as in the source). -/
structure TrendBreak where
  index : Nat
  before_avg : ℚ
  after_avg : ℚ
  change_rate : ℚ
  direction : String

/-- The dictionary returned by `detect_trend_break`. -/
structure TrendBreakReport where
  trend_breaks : List TrendBreak
  has_breaks : Bool

/-- `AnomalyDetector.detect_trend_break(data)` with its fixed `window = 3`. -/
def AnomalyDetector.detect_trend_break (data : List ℚ) : TrendBreakReport :=
  if data.length < 6 then { trend_breaks := [], has_breaks := false }
  else
    let window := 3
    let breaks := (List.range' window (data.length - 2 * window)).filterMap fun i =>
      let before_avg := ((data.drop (i - window)).take window).sum / (window : ℚ)
      let after_avg := ((data.drop i).take window).sum / (window : ℚ)
      if before_avg ≠ 0 then
        let change_rate := (after_avg - before_avg) / before_avg
        if |change_rate| > 0.5 then
          some { index := i, before_avg := before_avg, after_avg := after_avg,
                 change_rate := change_rate * 100,
                 direction := if change_rate > 0 then "up" else "down" }
        else none
      else none
    { trend_breaks := breaks, has_breaks := !breaks.isEmpty }

/-- Specification-side helper: the arithmetic mean of a list. -/
def listAvg (l : List ℚ) : ℚ := l.sum / (l.length : ℚ)

/-- Specification-side helper: the population variance of a list. -/
def listPopVar (l : List ℚ) : ℚ :=
  (l.map fun x => (x - listAvg l) ^ 2).sum / (l.length : ℚ)

/-- Specification-side helper for C9: the values of `monthly_data` whose key
parses to calendar month `m`, in input order. -/
def monthValues (monthly_data : List (String × ℚ)) (m : Int) : List ℚ :=
  monthly_data.filterMap fun p => if monthOf p.1 = some m then some p.2 else none

/-- Specification-side helper for C9: the per-calendar-month averages, for
the months (in order 1..12) that have at least one value. -/
def monthlyAvgList (monthly_data : List (String × ℚ)) : List ℚ :=
  (List.range' 1 12).filterMap fun (m : Nat) =>
    let vs := monthValues monthly_data (m : Int)
    if vs = [] then none else some (vs.sum / (vs.length : ℚ))

/-! ### General helper lemmas -/

lemma smaLoop_length (w : Nat) : ∀ (p : Nat) (working : List ℚ),
    (smaLoop w working p).length = p
  | 0, _ => rfl
  | p + 1, working => by simp [smaLoop, smaLoop_length w p]

lemma sma_predict_length (self : SimpleMovingAverage) (data : List ℚ) (periods : Nat) :
    (self.predict data periods).length = periods := by
  unfold SimpleMovingAverage.predict
  split_ifs <;> simp [smaLoop_length]

lemma exp_predict_length (self : ExponentialSmoothing) (data : List ℚ) (periods : Nat) :
    (self.predict data periods).length = periods := by
  cases data <;> simp [ExponentialSmoothing.predict]

lemma lr_fit_predict_length (data : List ℚ) (periods : Nat) :
    (LinearRegression.fit_predict data periods).1.length = periods := by
  simp only [LinearRegression.fit_predict]
  split_ifs <;> simp only [List.length_replicate, List.length_map, List.length_range]

lemma hw_predict_length (self : HoltWinters) (data : List ℚ) (periods : Nat) :
    (self.predict data periods).length = periods := by
  match data with
  | [] => simp only [HoltWinters.predict, List.length_replicate]
  | [d] => simp only [HoltWinters.predict, List.length_replicate]
  | d0 :: d1 :: rest =>
    simp only [HoltWinters.predict, List.length_map, List.length_range]

lemma trend_predict_length (data : List ℚ) (periods : Nat) (method : String) :
    (TrendPredictor.predict data periods method).predicted_values.length = periods := by
  simp only [TrendPredictor.predict]
  split_ifs <;>
    simp only [List.length_replicate, sma_predict_length, exp_predict_length,
      lr_fit_predict_length, hw_predict_length]

/-- C1: each of the four strategies, on a non-empty series and `periods ≥ 1`,
returns exactly `periods` predicted values, and `TrendPredictor.predict` does
so as well, including on the empty series. -/
theorem C1_predicted_length (data : List ℚ) (periods : Nat) (method : String)
    (hd : data ≠ []) (hp : 1 ≤ periods) :
    (SimpleMovingAverage.predict {} data periods).length = periods ∧
    (ExponentialSmoothing.predict {} data periods).length = periods ∧
    (LinearRegression.fit_predict data periods).1.length = periods ∧
    (HoltWinters.predict {} data periods).length = periods ∧
    (TrendPredictor.predict data periods method).predicted_values.length = periods ∧
    (TrendPredictor.predict [] periods method).predicted_values.length = periods :=
  ⟨sma_predict_length _ _ _, exp_predict_length _ _ _, lr_fit_predict_length _ _,
   hw_predict_length _ _ _, trend_predict_length _ _ _, trend_predict_length _ _ _⟩

theorem C1_predicted_length_witness :
    (([1, 2] : List ℚ) ≠ [] ∧ 1 ≤ 3) ∧
    ((SimpleMovingAverage.predict {} [1, 2] 3).length = 3 ∧
     (ExponentialSmoothing.predict {} [1, 2] 3).length = 3 ∧
     (LinearRegression.fit_predict [1, 2] 3).1.length = 3 ∧
     (HoltWinters.predict {} [1, 2] 3).length = 3 ∧
     (TrendPredictor.predict [1, 2] 3 "auto").predicted_values.length = 3 ∧
     (TrendPredictor.predict [] 3 "auto").predicted_values.length = 3) :=
  ⟨⟨by decide, by decide⟩, C1_predicted_length [1, 2] 3 "auto" (by decide) (by decide)⟩

/-- C3 counterexample: on the single-element series `[5]` the total sum of
squares is `0`, yet `calculate_r_squared` returns `0`, not `1` (the
`len(data) < 2` guard fires before the `ss_tot == 0` check). -/
theorem C3_counterexample :
    LinearRegression.calculate_r_squared [5] 3 7 = 0 ∧
    (([5] : List ℚ).map fun y => (y - ([5] : List ℚ).sum / ((([5] : List ℚ).length) : ℚ)) ^ 2).sum = 0 ∧
    (0 : ℚ) ≠ 1 :=
  ⟨by decide, by norm_num, by norm_num⟩

/-- C3 (amended): for every series of length at least 2 whose total sum of
squares is `0` (in particular every constant series of length ≥ 2),
`calculate_r_squared` returns `1`, for any slope and intercept; series
shorter than 2 return `0` instead. -/
theorem C3_r_squared_of_zero_ss_tot (data : List ℚ) (slope intercept : ℚ)
    (hlen : 2 ≤ data.length)
    (htot : (data.map fun y => (y - data.sum / ((data.length : Nat) : ℚ)) ^ 2).sum = 0) :
    LinearRegression.calculate_r_squared data slope intercept = 1 := by
  simp only [LinearRegression.calculate_r_squared]
  rw [if_neg (Nat.not_lt.mpr hlen), if_pos htot]

theorem C3_r_squared_of_zero_ss_tot_witness :
    (2 ≤ ([5, 5] : List ℚ).length ∧
      (([5, 5] : List ℚ).map fun y =>
        (y - ([5, 5] : List ℚ).sum / ((([5, 5] : List ℚ).length : Nat) : ℚ)) ^ 2).sum = 0) ∧
    LinearRegression.calculate_r_squared [5, 5] 9 (-4) = 1 :=
  ⟨⟨by decide, by norm_num⟩, C3_r_squared_of_zero_ss_tot [5, 5] 9 (-4) (by decide) (by norm_num)⟩

/-! ### Constant-series helpers (C4) -/

lemma sum_of_const (c : ℚ) : ∀ (l : List ℚ), (∀ x ∈ l, x = c) →
    l.sum = (l.length : ℚ) * c := by
  intro l
  induction l with
  | nil => simp
  | cons a t ih =>
    intro h
    have ha : a = c := h a (List.mem_cons_self a t)
    have ht := ih fun y hy => h y (List.mem_cons_of_mem a hy)
    simp only [List.sum_cons, ht, ha, List.length_cons]
    push_cast
    ring

lemma mean_of_const (c : ℚ) (l : List ℚ) (hne : l ≠ []) (h : ∀ x ∈ l, x = c) :
    l.sum / (l.length : ℚ) = c := by
  have hpos : 0 < l.length := List.length_pos.mpr hne
  have hlen : (l.length : ℚ) ≠ 0 := Nat.cast_ne_zero.mpr (by omega)
  rw [sum_of_const c l h, mul_comm, mul_div_assoc, div_self hlen, mul_one]

lemma smaLoop_const (c : ℚ) : ∀ (p : Nat) (working : List ℚ), working ≠ [] →
    (∀ x ∈ working, x = c) → smaLoop 3 working p = List.replicate p c
  | 0, _, _, _ => rfl
  | p + 1, working, hne, hall => by
    have hrec_sub : lastN 3 working ⊆ working := List.drop_subset _ _
    have hrec_ne : lastN 3 working ≠ [] := by
      intro hnil
      have hle := List.drop_eq_nil_iff.mp hnil
      have hpos : 0 < working.length := List.length_pos.mpr hne
      omega
    have hrec_all : ∀ x ∈ lastN 3 working, x = c := fun x hx => hall x (hrec_sub hx)
    have hpred : (lastN 3 working).sum / ((lastN 3 working).length : ℚ) = c :=
      mean_of_const c _ hrec_ne hrec_all
    simp only [smaLoop, hpred, List.replicate_succ, List.cons.injEq, true_and]
    exact smaLoop_const c p (working ++ [c]) (by simp)
      (by intro x hx; rcases List.mem_append.mp hx with h | h
          · exact hall x h
          · simpa using h)

lemma sma_predict_const (c : ℚ) (n periods : Nat) (hn : 3 ≤ n) :
    SimpleMovingAverage.predict {} (List.replicate n c) periods =
      List.replicate periods c := by
  have hlen : (List.replicate n c).length = n := List.length_replicate n c
  unfold SimpleMovingAverage.predict
  rw [if_neg (by simp only [hlen]; omega)]
  exact smaLoop_const c periods _ (by simp; omega) (fun x hx => List.eq_of_mem_replicate hx)

lemma foldl_const_fix {α : Type} (f : α → ℚ → α) (c : ℚ) (st : α)
    (hfix : f st c = st) : ∀ l : List ℚ, (∀ x ∈ l, x = c) → l.foldl f st = st := by
  intro l
  induction l with
  | nil => exact fun _ => rfl
  | cons x t ih =>
    intro h
    have hx : x = c := h x (List.mem_cons_self x t)
    rw [List.foldl_cons, hx, hfix]
    exact ih fun y hy => h y (List.mem_cons_of_mem x hy)

lemma exp_predict_const (c : ℚ) (n periods : Nat) (hn : 1 ≤ n) :
    ExponentialSmoothing.predict {} (List.replicate n c) periods =
      List.replicate periods c := by
  obtain ⟨m, rfl⟩ : ∃ m, n = m + 1 := ⟨n - 1, by omega⟩
  rw [List.replicate_succ]
  simp only [ExponentialSmoothing.predict]
  rw [foldl_const_fix _ c c (by ring) _ (fun x hx => List.eq_of_mem_replicate hx)]

lemma hw_predict_const (c : ℚ) (n periods : Nat) (hc : 0 ≤ c) (hn : 2 ≤ n) :
    HoltWinters.predict {} (List.replicate n c) periods = List.replicate periods c := by
  obtain ⟨m, rfl⟩ : ∃ m, n = m + 2 := ⟨n - 2, by omega⟩
  rw [List.replicate_succ, List.replicate_succ]
  simp only [HoltWinters.predict, sub_self]
  rw [show ((c : ℚ) :: List.replicate m c) = List.replicate (m + 1) c from
    (List.replicate_succ c m).symm]
  rw [foldl_const_fix _ c ((c : ℚ), (0 : ℚ))
    (by show (_, _) = ((c : ℚ), (0 : ℚ)); simp only [Prod.mk.injEq]; exact ⟨by ring, by ring⟩)
    _ (fun x hx => List.eq_of_mem_replicate hx)]
  simp [max_eq_right hc, List.map_const']

lemma getD_replicate (c : ℚ) : ∀ (n i : Nat), i < n → (List.replicate n c).getD i 0 = c
  | n + 1, 0, _ => by rw [List.replicate_succ, List.getD_cons_zero]
  | n + 1, i + 1, h => by
    rw [List.replicate_succ, List.getD_cons_succ]
    exact getD_replicate c n i (by omega)

lemma num_replicate_zero (c xm : ℚ) (n : Nat) :
    ((List.range n).map fun (i : Nat) =>
      ((i : ℚ) - xm) * ((List.replicate n c).getD i 0 - c)).sum = 0 := by
  apply List.sum_eq_zero
  intro x hx
  obtain ⟨i, hi, rfl⟩ := List.mem_map.mp hx
  rw [getD_replicate c n i (List.mem_range.mp hi), sub_self, mul_zero]

lemma lr_fit_predict_const (c : ℚ) (n periods : Nat) (hc : 0 ≤ c) (hn : 2 ≤ n) :
    (LinearRegression.fit_predict (List.replicate n c) periods).1 =
      List.replicate periods c := by
  have hlen : (List.replicate n c).length = n := List.length_replicate n c
  have hne : List.replicate n c ≠ [] := by
    intro h
    have := congrArg List.length h
    simp [hlen] at this
    omega
  have hmean : (List.replicate n c).sum / (n : ℚ) = c := by
    have := mean_of_const c (List.replicate n c) hne
      (fun x hx => List.eq_of_mem_replicate hx)
    rwa [hlen] at this
  simp only [LinearRegression.fit_predict, hlen]
  rw [if_neg (by omega)]
  simp only [hmean, num_replicate_zero, zero_div, zero_mul, zero_add, sub_zero]
  split_ifs with hden
  · simp
  · simp [max_eq_right hc, List.map_const']

/-- C4: for every constant value `c ≥ 0`, every constant series of length
`≥ 5` with all values `c`, and every `periods ≥ 1`, the forecasts of SMA,
Exponential Smoothing, Holt-Winters and Linear Regression all consist of
values equal to `c`. -/
theorem C4_constant_fixed_point (c : ℚ) (n periods : Nat) (hc : 0 ≤ c)
    (hn : 5 ≤ n) (hp : 1 ≤ periods) :
    SimpleMovingAverage.predict {} (List.replicate n c) periods = List.replicate periods c ∧
    ExponentialSmoothing.predict {} (List.replicate n c) periods = List.replicate periods c ∧
    HoltWinters.predict {} (List.replicate n c) periods = List.replicate periods c ∧
    (LinearRegression.fit_predict (List.replicate n c) periods).1 = List.replicate periods c :=
  ⟨sma_predict_const c n periods (by omega),
   exp_predict_const c n periods (by omega),
   hw_predict_const c n periods hc (by omega),
   lr_fit_predict_const c n periods hc (by omega)⟩

theorem C4_constant_fixed_point_witness :
    ((0 : ℚ) ≤ 2 ∧ 5 ≤ 5 ∧ 1 ≤ 3) ∧
    (SimpleMovingAverage.predict {} (List.replicate 5 (2 : ℚ)) 3 = List.replicate 3 (2 : ℚ) ∧
     ExponentialSmoothing.predict {} (List.replicate 5 (2 : ℚ)) 3 = List.replicate 3 (2 : ℚ) ∧
     HoltWinters.predict {} (List.replicate 5 (2 : ℚ)) 3 = List.replicate 3 (2 : ℚ) ∧
     (LinearRegression.fit_predict (List.replicate 5 (2 : ℚ)) 3).1 = List.replicate 3 (2 : ℚ)) :=
  ⟨⟨by norm_num, by norm_num, by norm_num⟩,
   C4_constant_fixed_point 2 5 3 (by norm_num) (by norm_num) (by norm_num)⟩

/-- C7: for series with at least 2 points, `analyze_trend` classifies by the
relative slope `slope/mean` (0 when the mean is 0) of the linear-regression
fit, with thresholds ±0.05 and `trend_strength = min(1, |rel|·r²·10)`; in
particular `[1,2,3,4,5,6]` is `increasing` and a constant series is
`stable` with strength 0. -/
theorem C7_analyze_trend (data : List ℚ) (h2 : 2 ≤ data.length) :
    (TrendPredictor.analyze_trend data =
      (let slope := (LinearRegression.fit_predict data 1).2.1
       let r_squared := LinearRegression.calculate_r_squared data slope
         (LinearRegression.fit_predict data 1).2.2
       let relative_slope :=
         if data.sum / (data.length : ℚ) ≠ 0 then slope / (data.sum / (data.length : ℚ)) else 0
       ((if relative_slope > 0.05 then "increasing"
         else if relative_slope < -0.05 then "decreasing" else "stable"),
        min 1 (|relative_slope| * r_squared * 10)))) ∧
    TrendPredictor.analyze_trend [1, 2, 3, 4, 5, 6] = ("increasing", 1) ∧
    TrendPredictor.analyze_trend [10, 10, 10, 10, 10, 10] = ("stable", 0) := by
  refine ⟨?_, ?_, ?_⟩
  · have hne : data ≠ [] := by
      intro h
      rw [h] at h2
      simp at h2
    simp only [TrendPredictor.analyze_trend]
    rw [if_neg (by omega), if_neg hne]
  · norm_num [TrendPredictor.analyze_trend, LinearRegression.fit_predict,
      LinearRegression.calculate_r_squared, List.range_succ, List.cons_ne_nil, abs_of_nonneg]
  · norm_num [TrendPredictor.analyze_trend, LinearRegression.fit_predict,
      LinearRegression.calculate_r_squared, List.range_succ, List.cons_ne_nil]

theorem C7_analyze_trend_witness :
    2 ≤ ([1, 2, 3, 4, 5, 6] : List ℚ).length ∧
    TrendPredictor.analyze_trend [1, 2, 3, 4, 5, 6] = ("increasing", 1) :=
  ⟨by decide, (C7_analyze_trend [1, 2, 3, 4, 5, 6] (by decide)).2.1⟩

lemma predict_auto_eval (data : List ℚ) (periods : Nat) (hd : data ≠ []) :
    ((TrendPredictor.predict data periods "auto").model_used =
      (if data.length < 5 then "Simple Moving Average"
       else if (TrendPredictor.analyze_trend data).2 > 0.5 then "Holt-Winters"
       else "Linear Regression")) ∧
    ((TrendPredictor.predict data periods "auto").predicted_values =
      (if data.length < 5 then SimpleMovingAverage.predict {} data periods
       else if (TrendPredictor.analyze_trend data).2 > 0.5 then
         HoltWinters.predict {} data periods
       else (LinearRegression.fit_predict data periods).1)) := by
  simp only [TrendPredictor.predict]
  rw [if_neg hd]
  by_cases h5 : data.length < 5
  · simp [h5]
  · by_cases hs : (TrendPredictor.analyze_trend data).2 > 0.5
    · simp [h5, hs]
    · simp [h5, hs]

/-- C8: with `method='auto'` and non-empty data, the model is SMA when
`len(data) < 5`, Holt-Winters when `len ≥ 5` and `trend_strength > 0.5`,
and Linear Regression otherwise; `model_used` and `predicted_values` both
reflect the choice, and `predict([1,2,4,8,16,32], 3, 'auto')` selects
Holt-Winters. -/
theorem C8_auto_selection (data : List ℚ) (periods : Nat) (hd : data ≠ []) :
    ((TrendPredictor.predict data periods "auto").model_used =
      (if data.length < 5 then "Simple Moving Average"
       else if (TrendPredictor.analyze_trend data).2 > 0.5 then "Holt-Winters"
       else "Linear Regression")) ∧
    ((TrendPredictor.predict data periods "auto").predicted_values =
      (if data.length < 5 then SimpleMovingAverage.predict {} data periods
       else if (TrendPredictor.analyze_trend data).2 > 0.5 then
         HoltWinters.predict {} data periods
       else (LinearRegression.fit_predict data periods).1)) ∧
    (TrendPredictor.predict [1, 2, 4, 8, 16, 32] 3 "auto").model_used = "Holt-Winters" := by
  refine ⟨(predict_auto_eval data periods hd).1, (predict_auto_eval data periods hd).2, ?_⟩
  rw [(predict_auto_eval [1, 2, 4, 8, 16, 32] 3 (by decide)).1]
  have hstrength : TrendPredictor.analyze_trend [1, 2, 4, 8, 16, 32] = ("increasing", 1) := by
    norm_num [TrendPredictor.analyze_trend, LinearRegression.fit_predict,
      LinearRegression.calculate_r_squared, List.range_succ, List.cons_ne_nil, abs_of_nonneg]
  rw [hstrength]
  norm_num

theorem C8_auto_selection_witness :
    ([1, 2, 4, 8, 16, 32] : List ℚ) ≠ [] ∧
    (TrendPredictor.predict [1, 2, 4, 8, 16, 32] 3 "auto").model_used = "Holt-Winters" :=
  ⟨by decide, (C8_auto_selection [1, 2, 4, 8, 16, 32] 3 (by decide)).2.2⟩

lemma foldl_max_mem (a : ℚ) : ∀ (as : List ℚ), as.foldl max a ∈ a :: as := by
  intro as
  induction as generalizing a with
  | nil => simp
  | cons b bs ih =>
    rw [List.foldl_cons]
    rcases List.mem_cons.mp (ih (max a b)) with h1 | h1
    · rw [h1]
      rcases max_choice a b with hm | hm <;> rw [hm] <;> simp
    · simp [h1]

lemma le_foldl_max : ∀ (as : List ℚ) (a x : ℚ), x ∈ a :: as → x ≤ as.foldl max a := by
  intro as
  induction as with
  | nil =>
    intro a x hx
    simp at hx
    simp [hx]
  | cons b bs ih =>
    intro a x hx
    rw [List.foldl_cons]
    have hinit : max a b ≤ bs.foldl max (max a b) :=
      ih (max a b) (max a b) (List.mem_cons_self _ _)
    rcases List.mem_cons.mp hx with h1 | h1
    · subst h1
      exact le_trans (le_max_left x b) hinit
    · rcases List.mem_cons.mp h1 with h2 | h2
      · subst h2
        exact le_trans (le_max_right a x) hinit
      · exact ih (max a b) x (List.mem_cons_of_mem _ h2)

/-- C10: on a non-empty monthly count series of non-negative counts with at
least one strictly positive count, every activity score
`count / max(counts) * 100` lies in `[0, 100]`, and the score `100` is
attained (at the maximal count). -/
theorem C10_activity_scores (monthly : List ℚ) (hne : monthly ≠ [])
    (hnn : ∀ x ∈ monthly, 0 ≤ x) (hpos : ∃ x ∈ monthly, 0 < x) :
    (∀ s ∈ ProjectHealthPredictor.calculate_activity_scores monthly, 0 ≤ s ∧ s ≤ 100) ∧
    100 ∈ ProjectHealthPredictor.calculate_activity_scores monthly := by
  obtain ⟨a, as, rfl⟩ := List.exists_cons_of_ne_nil hne
  have hMmem : as.foldl max a ∈ a :: as := foldl_max_mem a as
  have hMub : ∀ x ∈ a :: as, x ≤ as.foldl max a := fun x hx => le_foldl_max as a x hx
  have hMpos : 0 < as.foldl max a := by
    obtain ⟨x, hx, hxpos⟩ := hpos
    exact lt_of_lt_of_le hxpos (hMub x hx)
  have hscores : ProjectHealthPredictor.calculate_activity_scores (a :: as) =
      (a :: as).map fun c => c / as.foldl max a * 100 := by
    simp only [ProjectHealthPredictor.calculate_activity_scores]
    rw [if_neg (List.cons_ne_nil a as)]
    rfl
  rw [hscores]
  constructor
  · intro s hs
    obtain ⟨c, hc, rfl⟩ := List.mem_map.mp hs
    refine ⟨mul_nonneg (div_nonneg (hnn c hc) hMpos.le) (by norm_num), ?_⟩
    have hdiv : c / as.foldl max a ≤ 1 := (div_le_one hMpos).mpr (hMub c hc)
    calc c / as.foldl max a * 100 ≤ 1 * 100 :=
          mul_le_mul_of_nonneg_right hdiv (by norm_num)
      _ = 100 := one_mul 100
  · refine List.mem_map.mpr ⟨as.foldl max a, hMmem, ?_⟩
    rw [div_self hMpos.ne', one_mul]

theorem C10_activity_scores_witness :
    (([1, 4, 2] : List ℚ) ≠ [] ∧ (∀ x ∈ ([1, 4, 2] : List ℚ), 0 ≤ x) ∧
      (∃ x ∈ ([1, 4, 2] : List ℚ), 0 < x)) ∧
    ((∀ s ∈ ProjectHealthPredictor.calculate_activity_scores [1, 4, 2], 0 ≤ s ∧ s ≤ 100) ∧
     100 ∈ ProjectHealthPredictor.calculate_activity_scores [1, 4, 2]) :=
  ⟨⟨by simp, by norm_num, ⟨1, by norm_num, by norm_num⟩⟩,
   C10_activity_scores [1, 4, 2] (by simp) (by norm_num) ⟨1, by norm_num, by norm_num⟩⟩

/-- C6: no core operation fails on empty or insufficient input — each
degrades to its documented default: `TrendPredictor.predict` on empty data
returns the zero-filled result with `model_used='none'`; the strategies and
`analyze_trend` return their flat defaults below their minimum lengths;
`detect_anomalies` (< 3 points) and `detect_trend_break` (< 6 points)
return explicitly empty reports; `analyze_seasonality` on an empty mapping
reports no seasonality.  (Every embedded operation is a total function, so
no evaluation raises.) -/
theorem C6_graceful_defaults (data : List ℚ) (periods : Nat) (method : String)
    (labels : Option (List String)) :
    (TrendPredictor.predict [] periods method =
      { metric_name := "unknown", current_value := 0,
        predicted_values := List.replicate periods 0, prediction_dates := [],
        confidence_interval := (0, 0), trend := "stable", trend_strength := 0,
        model_used := "none" }) ∧
    (data = [] → SimpleMovingAverage.predict {} data periods = List.replicate periods 0) ∧
    (data.length < 2 → LinearRegression.fit_predict data periods =
      (List.replicate periods (data.headD 0), 0, data.headD 0)) ∧
    (data.length < 2 → HoltWinters.predict {} data periods =
      List.replicate periods (data.headD 0)) ∧
    (data.length < 2 → TrendPredictor.analyze_trend data = ("stable", 0)) ∧
    (data.length < 3 → AnomalyDetector.detect_anomalies {} data labels =
      { anomalies := [], has_anomalies := false, statistics := none }) ∧
    (data.length < 6 → AnomalyDetector.detect_trend_break data =
      { trend_breaks := [], has_breaks := false }) ∧
    SeasonalAnalyzer.analyze_seasonality [] = .ok ⟨False, none⟩ := by
  refine ⟨?_, ?_, ?_, ?_, ?_, ?_, ?_, ?_⟩
  · simp [TrendPredictor.predict]
  · intro h
    subst h
    simp [SimpleMovingAverage.predict]
  · intro h
    simp [LinearRegression.fit_predict, h]
  · intro h
    match data, h with
    | [], _ => rfl
    | [d], _ => rfl
  · intro h
    simp [TrendPredictor.analyze_trend, h]
  · intro h
    simp [AnomalyDetector.detect_anomalies, h]
  · intro h
    simp [AnomalyDetector.detect_trend_break, h]
  · simp [SeasonalAnalyzer.analyze_seasonality]

theorem C6_graceful_defaults_witness :
    (TrendPredictor.predict [] 4 "exp" =
      { metric_name := "unknown", current_value := 0,
        predicted_values := List.replicate 4 0, prediction_dates := [],
        confidence_interval := (0, 0), trend := "stable", trend_strength := 0,
        model_used := "none" }) ∧
    SimpleMovingAverage.predict {} [] 4 = List.replicate 4 0 ∧
    LinearRegression.fit_predict [] 4 = (List.replicate 4 ((0 : ℚ)), 0, 0) ∧
    HoltWinters.predict {} [] 4 = List.replicate 4 0 ∧
    TrendPredictor.analyze_trend [] = ("stable", 0) ∧
    AnomalyDetector.detect_anomalies {} [] none =
      { anomalies := [], has_anomalies := false, statistics := none } ∧
    AnomalyDetector.detect_trend_break [] =
      { trend_breaks := [], has_breaks := false } ∧
    SeasonalAnalyzer.analyze_seasonality [] = .ok ⟨False, none⟩ :=
  ⟨(C6_graceful_defaults [] 4 "exp" none).1,
   (C6_graceful_defaults [] 4 "exp" none).2.1 rfl,
   (C6_graceful_defaults [] 4 "exp" none).2.2.1 (by decide),
   (C6_graceful_defaults [] 4 "exp" none).2.2.2.1 (by decide),
   (C6_graceful_defaults [] 4 "exp" none).2.2.2.2.1 (by decide),
   (C6_graceful_defaults [] 4 "exp" none).2.2.2.2.2.1 (by decide),
   (C6_graceful_defaults [] 4 "exp" none).2.2.2.2.2.2.1 (by decide),
   (C6_graceful_defaults [] 4 "exp" none).2.2.2.2.2.2.2⟩

/-! ### Non-negativity helpers (C5) -/

lemma mean_nonneg (l : List ℚ) (h : ∀ x ∈ l, 0 ≤ x) : 0 ≤ l.sum / (l.length : ℚ) :=
  div_nonneg (List.sum_nonneg h) (Nat.cast_nonneg _)

lemma smaLoop_nonneg (w : Nat) : ∀ (p : Nat) (working : List ℚ),
    (∀ x ∈ working, 0 ≤ x) → ∀ y ∈ smaLoop w working p, 0 ≤ y := by
  intro p
  induction p with
  | zero =>
    intro working h y hy
    simp [smaLoop] at hy
  | succ p ih =>
    intro working h y hy
    simp only [smaLoop] at hy
    have hpred : 0 ≤ (lastN w working).sum / (((lastN w working).length : Nat) : ℚ) :=
      mean_nonneg _ (fun x hx => h x (List.drop_subset _ _ hx))
    rcases List.mem_cons.mp hy with h1 | h1
    · rw [h1]
      exact hpred
    · refine ih _ ?_ y h1
      intro x hx
      rcases List.mem_append.mp hx with h2 | h2
      · exact h x h2
      · rw [List.mem_singleton.mp h2]
        exact hpred

lemma sma_predict_nonneg (data : List ℚ) (periods : Nat) (h : ∀ x ∈ data, 0 ≤ x) :
    ∀ y ∈ SimpleMovingAverage.predict {} data periods, 0 ≤ y := by
  intro y hy
  unfold SimpleMovingAverage.predict at hy
  split_ifs at hy with h1 h2
  · exact (List.eq_of_mem_replicate hy).ge
  · exact le_of_le_of_eq (mean_nonneg data h) (List.eq_of_mem_replicate hy).symm
  · exact smaLoop_nonneg _ _ _ h y hy

lemma foldl_smooth_nonneg (a : ℚ) (ha0 : 0 ≤ a) (ha1 : a ≤ 1) :
    ∀ (l : List ℚ) (s : ℚ), 0 ≤ s → (∀ x ∈ l, 0 ≤ x) →
      0 ≤ l.foldl (fun s v => a * v + (1 - a) * s) s := by
  intro l
  induction l with
  | nil => intro s hs _; exact hs
  | cons x t ih =>
    intro s hs hl
    rw [List.foldl_cons]
    refine ih _ ?_ fun y hy => hl y (List.mem_cons_of_mem x hy)
    have hx : 0 ≤ x := hl x (List.mem_cons_self x t)
    have h1a : 0 ≤ 1 - a := by linarith
    positivity

lemma exp_predict_nonneg (data : List ℚ) (periods : Nat) (h : ∀ x ∈ data, 0 ≤ x) :
    ∀ y ∈ ExponentialSmoothing.predict {} data periods, 0 ≤ y := by
  intro y hy
  match data, h, hy with
  | [], _, hy => exact (List.eq_of_mem_replicate hy).ge
  | d :: rest, h, hy =>
    simp only [ExponentialSmoothing.predict] at hy
    have hfold := foldl_smooth_nonneg (({} : ExponentialSmoothing).alpha)
      (by norm_num [ExponentialSmoothing.alpha]) (by norm_num [ExponentialSmoothing.alpha])
      rest d (h d (List.mem_cons_self d rest))
      (fun x hx => h x (List.mem_cons_of_mem d hx))
    exact le_of_le_of_eq hfold (List.eq_of_mem_replicate hy).symm

lemma hw_predict_nonneg (data : List ℚ) (periods : Nat) (h : ∀ x ∈ data, 0 ≤ x) :
    ∀ y ∈ HoltWinters.predict {} data periods, 0 ≤ y := by
  intro y hy
  match data, h, hy with
  | [], _, hy => exact (List.eq_of_mem_replicate hy).ge
  | [d], h, hy =>
    exact le_of_le_of_eq (h d (List.mem_cons_self d [])) (List.eq_of_mem_replicate hy).symm
  | d0 :: d1 :: rest, h, hy =>
    simp only [HoltWinters.predict] at hy
    obtain ⟨i, _, rfl⟩ := List.mem_map.mp hy
    exact le_max_left 0 _

lemma lr_fit_predict_nonneg (data : List ℚ) (periods : Nat) (h : ∀ x ∈ data, 0 ≤ x) :
    ∀ y ∈ (LinearRegression.fit_predict data periods).1, 0 ≤ y := by
  intro y hy
  simp only [LinearRegression.fit_predict] at hy
  split_ifs at hy with h1 h2
  · have hhead : 0 ≤ data.headD 0 := by
      cases data with
      | nil => simp
      | cons a t => exact h a (List.mem_cons_self a t)
    exact le_of_le_of_eq hhead (List.eq_of_mem_replicate hy).symm
  · exact le_of_le_of_eq (mean_nonneg data h) (List.eq_of_mem_replicate hy).symm
  · obtain ⟨i, _, rfl⟩ := List.mem_map.mp hy
    exact le_max_left 0 _

lemma predict_values_nonneg (data : List ℚ) (periods : Nat) (method : String)
    (h : ∀ x ∈ data, 0 ≤ x) :
    ∀ y ∈ (TrendPredictor.predict data periods method).predicted_values, 0 ≤ y := by
  intro y hy
  simp only [TrendPredictor.predict] at hy
  split_ifs at hy <;>
    first
      | exact (List.eq_of_mem_replicate hy).ge
      | exact sma_predict_nonneg data periods h y hy
      | exact exp_predict_nonneg data periods h y hy
      | exact lr_fit_predict_nonneg data periods h y hy
      | exact hw_predict_nonneg data periods h y hy

lemma max_interval_le (pm σ : ℝ) (hpm : 0 ≤ pm) (hσ : 0 ≤ σ) :
    0 ≤ max 0 (pm - 2 * σ) ∧ max 0 (pm - 2 * σ) ≤ pm + 2 * σ :=
  ⟨le_max_left 0 _, max_le (by linarith) (by linarith)⟩

lemma interval_bounds (data predictions : List ℚ)
    (hpred : ∀ y ∈ predictions, 0 ≤ y) :
    0 ≤ (TrendPredictor.calculate_confidence_interval data predictions).1 ∧
    (TrendPredictor.calculate_confidence_interval data predictions).1 ≤
      (TrendPredictor.calculate_confidence_interval data predictions).2 := by
  have hhead : (0 : ℝ) ≤ ((predictions.headD 0 : ℚ) : ℝ) := by
    have h0 : (0 : ℚ) ≤ predictions.headD 0 := by
      cases predictions with
      | nil => simp
      | cons a t => exact hpred a (List.mem_cons_self a t)
    exact_mod_cast h0
  simp only [TrendPredictor.calculate_confidence_interval]
  split_ifs with h1 h2
  · constructor
    · simpa using mul_nonneg hhead (by norm_num)
    · simpa using mul_le_mul_of_nonneg_left (by norm_num : (0.8 : ℝ) ≤ 1.2) hhead
  · exact max_interval_le _ _ (by norm_num) (Real.sqrt_nonneg _)
  · exact max_interval_le _ _ (by exact_mod_cast mean_nonneg predictions hpred)
      (Real.sqrt_nonneg _)

lemma predict_interval (data : List ℚ) (periods : Nat) (method : String)
    (hne : data ≠ []) :
    (TrendPredictor.predict data periods method).confidence_interval =
      TrendPredictor.calculate_confidence_interval data
        (TrendPredictor.predict data periods method).predicted_values := by
  simp only [TrendPredictor.predict]
  rw [if_neg hne]

/-- C5: for a non-empty series of non-negative values and `periods ≥ 1`, the
confidence interval of `TrendPredictor.predict` satisfies
`0 ≤ lower ≤ upper`; with fewer than 2 points it is
`(forecast*0.8, forecast*1.2)`, otherwise
`(max(0, mean(predictions) - 2·std), mean(predictions) + 2·std)` with `std`
the population standard deviation of the historical data. -/
theorem C5_confidence_interval (data : List ℚ) (periods : Nat) (method : String)
    (hne : data ≠ []) (hnn : ∀ x ∈ data, 0 ≤ x) (hp : 1 ≤ periods) :
    (0 ≤ (TrendPredictor.predict data periods method).confidence_interval.1 ∧
     (TrendPredictor.predict data periods method).confidence_interval.1 ≤
       (TrendPredictor.predict data periods method).confidence_interval.2) ∧
    (data.length < 2 →
      (TrendPredictor.predict data periods method).confidence_interval =
        (((TrendPredictor.predict data periods method).predicted_values.headD 0 : ℝ) * 0.8,
         ((TrendPredictor.predict data periods method).predicted_values.headD 0 : ℝ) * 1.2)) ∧
    (2 ≤ data.length →
      (TrendPredictor.predict data periods method).confidence_interval =
        (max 0 ((listAvg (TrendPredictor.predict data periods method).predicted_values : ℝ) -
            2 * Real.sqrt ((listPopVar data : ℝ))),
         (listAvg (TrendPredictor.predict data periods method).predicted_values : ℝ) +
            2 * Real.sqrt ((listPopVar data : ℝ)))) := by
  have hpi := predict_interval data periods method hne
  refine ⟨?_, ?_, ?_⟩
  · rw [hpi]
    exact interval_bounds data _ (predict_values_nonneg data periods method hnn)
  · intro h2
    rw [hpi]
    simp only [TrendPredictor.calculate_confidence_interval]
    rw [if_pos h2]
  · intro h2
    rw [hpi]
    simp only [TrendPredictor.calculate_confidence_interval]
    rw [if_neg (by omega)]
    have hlennil : (TrendPredictor.predict data periods method).predicted_values ≠ [] := by
      intro hnil
      have hl := trend_predict_length data periods method
      rw [hnil] at hl
      simp at hl
      omega
    rw [if_neg hlennil]
    simp only [listAvg, listPopVar]

theorem C5_confidence_interval_witness :
    (([1, 2, 3] : List ℚ) ≠ [] ∧ (∀ x ∈ ([1, 2, 3] : List ℚ), 0 ≤ x) ∧ 1 ≤ 2) ∧
    ((0 ≤ (TrendPredictor.predict [1, 2, 3] 2 "exp").confidence_interval.1 ∧
      (TrendPredictor.predict [1, 2, 3] 2 "exp").confidence_interval.1 ≤
        (TrendPredictor.predict [1, 2, 3] 2 "exp").confidence_interval.2) ∧
     (([1, 2, 3] : List ℚ).length < 2 →
       (TrendPredictor.predict [1, 2, 3] 2 "exp").confidence_interval =
         (((TrendPredictor.predict [1, 2, 3] 2 "exp").predicted_values.headD 0 : ℝ) * 0.8,
          ((TrendPredictor.predict [1, 2, 3] 2 "exp").predicted_values.headD 0 : ℝ) * 1.2)) ∧
     (2 ≤ ([1, 2, 3] : List ℚ).length →
       (TrendPredictor.predict [1, 2, 3] 2 "exp").confidence_interval =
         (max 0 ((listAvg (TrendPredictor.predict [1, 2, 3] 2 "exp").predicted_values : ℝ) -
             2 * Real.sqrt ((listPopVar [1, 2, 3] : ℝ))),
          (listAvg (TrendPredictor.predict [1, 2, 3] 2 "exp").predicted_values : ℝ) +
             2 * Real.sqrt ((listPopVar [1, 2, 3] : ℝ))))) :=
  ⟨⟨by simp, by norm_num, by norm_num⟩,
   C5_confidence_interval [1, 2, 3] 2 "exp" (by simp) (by norm_num) (by norm_num)⟩

/-! ### Anomaly-detector evaluation on `[1,1,1,1,1,1,1,100]` (C2) -/

/-- The population standard deviation of `[1,1,1,1,1,1,1,100]`
(variance `68607/64`). -/
noncomputable def sigmaC2 : ℝ := Real.sqrt (((68607 / 64 : ℚ) : ℝ))

lemma sigmaC2_def : sigmaC2 = Real.sqrt (((68607 / 64 : ℚ) : ℝ)) := rfl

lemma sigmaC2_sq : sigmaC2 ^ 2 = 68607 / 64 := by
  rw [sigmaC2_def, show (((68607 / 64 : ℚ) : ℝ)) = 68607 / 64 by norm_num]
  exact Real.sq_sqrt (by norm_num)

lemma sigmaC2_pos : 0 < sigmaC2 := by
  rw [sigmaC2_def]
  apply Real.sqrt_pos.mpr
  norm_num

lemma abs_div_le_of_sq (d σ c : ℝ) (hσ : 0 < σ) (hc : 0 ≤ c)
    (h : d ^ 2 ≤ c ^ 2 * σ ^ 2) : |d / σ| ≤ c := by
  rw [abs_div, abs_of_pos hσ, div_le_iff₀ hσ]
  nlinarith [abs_nonneg d, mul_nonneg hc hσ.le, sq_abs d]

lemma lt_div_of_sq (d σ c : ℝ) (hσ : 0 < σ) (hc : 0 ≤ c)
    (h : c ^ 2 * σ ^ 2 < d ^ 2) (hd : 0 ≤ d) : c < d / σ := by
  rw [lt_div_iff₀ hσ]
  nlinarith [mul_nonneg hc hσ.le]

lemma anomaly_default_sensitivity : ({} : AnomalyDetector).sensitivity = 2 := rfl

lemma c2_flag_small (i : Nat) :
    AnomalyDetector.flag {} (107 / 8) sigmaC2 none (i, 1) = none := by
  simp only [AnomalyDetector.flag, anomaly_default_sensitivity]
  rw [if_neg]
  rw [not_lt]
  have hd : (((1 : ℚ) : ℝ)) - (((107 / 8 : ℚ) : ℝ)) = -(99 / 8) := by
    push_cast
    norm_num
  rw [show ((2 : ℚ) : ℝ) = 2 by norm_num, hd]
  apply abs_div_le_of_sq _ _ _ sigmaC2_pos (by norm_num)
  rw [sigmaC2_sq]
  norm_num

/-- The single anomaly record that `detect_anomalies` builds for
`[1,1,1,1,1,1,1,100]`: index 7, a `spike` of severity `medium`. -/
noncomputable def c2_record : AnomalyRecord :=
  { index := 7, value := 100,
    z_score := (((100 : ℚ) : ℝ) - ((107 / 8 : ℚ) : ℝ)) / sigmaC2,
    type := "spike", severity := "medium", label := none }

lemma c2_flag_big :
    AnomalyDetector.flag {} (107 / 8) sigmaC2 none (7, 100) = some c2_record := by
  have hd : (((100 : ℚ) : ℝ)) - (((107 / 8 : ℚ) : ℝ)) = 693 / 8 := by
    push_cast
    norm_num
  have hz_pos : 0 < ((((100 : ℚ) : ℝ)) - (((107 / 8 : ℚ) : ℝ))) / sigmaC2 := by
    rw [hd]
    exact div_pos (by norm_num) sigmaC2_pos
  have hgt : ((2 : ℚ) : ℝ) < |((((100 : ℚ) : ℝ)) - (((107 / 8 : ℚ) : ℝ))) / sigmaC2| := by
    rw [abs_of_pos hz_pos, hd, show ((2 : ℚ) : ℝ) = 2 by norm_num]
    apply lt_div_of_sq _ _ _ sigmaC2_pos (by norm_num) _ (by norm_num)
    rw [sigmaC2_sq]
    norm_num
  have hle3 : |((((100 : ℚ) : ℝ)) - (((107 / 8 : ℚ) : ℝ))) / sigmaC2| ≤ 3 := by
    rw [hd]
    apply abs_div_le_of_sq _ _ _ sigmaC2_pos (by norm_num)
    rw [sigmaC2_sq]
    norm_num
  simp only [AnomalyDetector.flag, anomaly_default_sensitivity]
  rw [if_pos hgt, if_pos hz_pos, if_neg (not_lt.mpr hle3)]
  rfl

lemma c2_enum :
    ([1, 1, 1, 1, 1, 1, 1, 100] : List ℚ).enum =
      [(0, 1), (1, 1), (2, 1), (3, 1), (4, 1), (5, 1), (6, 1), (7, 100)] := by
  rfl

lemma c2_report_eval :
    AnomalyDetector.detect_anomalies {} [1, 1, 1, 1, 1, 1, 1, 100] none =
      { anomalies := [c2_record],
        has_anomalies := true,
        statistics := some (⟨107 / 8, sigmaC2,
          ((107 / 8 : ℚ) : ℝ) + ((2 : ℚ) : ℝ) * sigmaC2⟩ : AnomalyStatistics) } := by
  have hmean : ([1, 1, 1, 1, 1, 1, 1, 100] : List ℚ).sum /
      ((([1, 1, 1, 1, 1, 1, 1, 100] : List ℚ).length : Nat) : ℚ) = 107 / 8 := by
    norm_num
  have hvar : (([1, 1, 1, 1, 1, 1, 1, 100] : List ℚ).map fun x => (x - 107 / 8) ^ 2).sum /
      ((([1, 1, 1, 1, 1, 1, 1, 100] : List ℚ).length : Nat) : ℚ) = 68607 / 64 := by
    norm_num
  simp only [AnomalyDetector.detect_anomalies, anomaly_default_sensitivity]
  rw [if_neg (by norm_num)]
  simp only [hmean, hvar, ← sigmaC2_def]
  rw [if_neg (ne_of_gt sigmaC2_pos)]
  rw [c2_enum]
  simp only [List.filterMap_cons, c2_flag_small, c2_flag_big, List.filterMap_nil]
  rfl

/-- C2 counterexample: on `[1,1,1,1,1,1,1,100]` with the default sensitivity
2.0, the detector flags exactly one anomaly, at index 7 of type `spike`, but
its severity is `"medium"` (its z-score is `693/√68607 ≈ 2.65 ≤ 3`), not
`"high"` as the claim states. -/
theorem C2_counterexample :
    ((AnomalyDetector.detect_anomalies {} [1, 1, 1, 1, 1, 1, 1, 100] none).anomalies.map
      fun a => (a.index, a.type, a.severity)) = [(7, "spike", "medium")] ∧
    ("medium" : String) ≠ "high" := by
  rw [c2_report_eval]
  exact ⟨rfl, by decide⟩

/-- C2 (amended): `detect_anomalies([1,1,1,1,1,1,1,100])` with the default
sensitivity 2.0 flags the point at index 7 as an anomaly of type `spike`
with severity `medium` (the z-score ≈ 2.65 exceeds the sensitivity 2 but
not the high-severity threshold 3). -/
theorem C2_anomaly_spike_medium :
    ((AnomalyDetector.detect_anomalies {} [1, 1, 1, 1, 1, 1, 1, 100] none).anomalies.map
      fun a => (a.index, a.type, a.severity)) = [(7, "spike", "medium")] ∧
    (AnomalyDetector.detect_anomalies {} [1, 1, 1, 1, 1, 1, 1, 100] none).has_anomalies
      = true := by
  rw [c2_report_eval]
  exact ⟨rfl, rfl⟩

/-! ### Seasonality analysis (C9) -/

lemma groupMonths_ok (l : List (String × ℚ))
    (h : ∀ p ∈ l, ∀ m, monthOf p.1 = some m → 1 ≤ m ∧ m ≤ 12) :
    ∃ f, groupMonths l = .ok f ∧ ∀ m, f m = monthValues l m := by
  induction l with
  | nil => exact ⟨fun _ => [], rfl, fun m => rfl⟩
  | cons p rest ih =>
    obtain ⟨f, hf, hfm⟩ := ih fun q hq => h q (List.mem_cons_of_mem p hq)
    obtain ⟨k, v⟩ := p
    by_cases hk : ∃ m, monthOf k = some m
    · obtain ⟨m, hm⟩ := hk
      have hrange := h (k, v) (List.mem_cons_self _ _) m hm
      refine ⟨fun n => if n = m then v :: f n else f n, ?_, ?_⟩
      · simp only [groupMonths, hm]
        rw [if_pos hrange, hf]
        rfl
      · intro n
        show (if n = m then v :: f n else f n) = monthValues ((k, v) :: rest) n
        by_cases hn : n = m
        · subst hn
          rw [if_pos rfl]
          simp [monthValues, List.filterMap_cons, hm, hfm n]
        · rw [if_neg hn]
          simp only [monthValues, List.filterMap_cons]
          have hcond : ¬ monthOf k = some n := by
            rw [hm]
            intro hc
            exact hn (Option.some.inj hc).symm
          simp [hcond, hfm n, monthValues]
    · have hnone : monthOf k = none := by
        cases hmo : monthOf k with
        | none => rfl
        | some m => exact absurd ⟨m, hmo⟩ hk
      refine ⟨f, ?_, fun n => ?_⟩
      · simp only [groupMonths, hnone]
        exact hf
      · simp only [monthValues, List.filterMap_cons, hnone]
        simp [hfm n, monthValues]

lemma c9_monthly_avgs (l : List (String × ℚ)) (f : Int → List ℚ)
    (hfm : ∀ m, f m = monthValues l m) :
    ((List.range' 1 12).filterMap fun (m : Nat) =>
      if f (m : Int) = [] then none
      else some ((m : Int), (f (m : Int)).sum / (((f (m : Int)).length : Nat) : ℚ))).map
        (fun p => p.2) = monthlyAvgList l := by
  simp only [monthlyAvgList, hfm]
  rw [List.map_filterMap]
  congr 1
  funext m
  split_ifs <;> rfl

/-- C9 counterexample: the claim quantifies over every `monthly_data`
mapping, but on `{"2023-13": 1}` the parsed month 13 is outside the keys
1..12 of `month_totals`, so the source raises an uncaught `KeyError`
(modelled as `Except.error 13`) instead of reporting `has_seasonality`. -/
theorem C9_counterexample :
    SeasonalAnalyzer.analyze_seasonality [("2023-13", (1 : ℚ))] = .error 13 := by
  have hm : monthOf "2023-13" = some 13 := by decide
  have hg : groupMonths [("2023-13", (1 : ℚ))] = .error 13 := by
    simp only [groupMonths, hm]
    rw [if_neg (by decide)]
  simp only [SeasonalAnalyzer.analyze_seasonality]
  rw [if_neg (by simp), hg]

/-- C9 (amended): for every `monthly_data` mapping in which every key that
parses to an integer month yields a month within 1..12 (keys that fail to
parse are skipped), `analyze_seasonality` returns a report whose
`has_seasonality` holds exactly when the per-calendar-month averages are
non-empty with non-zero mean and their coefficient of variation
`std_dev/mean` exceeds 0.2; mappings with an out-of-range parsed month
instead raise `KeyError`. -/
theorem C9_seasonality_cv (l : List (String × ℚ))
    (h : ∀ p ∈ l, ∀ m, monthOf p.1 = some m → 1 ≤ m ∧ m ≤ 12) :
    ∃ r, SeasonalAnalyzer.analyze_seasonality l = .ok r ∧
      (r.has_seasonality ↔ (monthlyAvgList l ≠ [] ∧ listAvg (monthlyAvgList l) ≠ 0 ∧
        Real.sqrt ((listPopVar (monthlyAvgList l) : ℚ) : ℝ) /
          ((listAvg (monthlyAvgList l) : ℚ) : ℝ) > 0.2)) := by
  by_cases hnil : l = []
  · subst hnil
    refine ⟨⟨False, none⟩, by simp [SeasonalAnalyzer.analyze_seasonality], ?_⟩
    have hA : monthlyAvgList ([] : List (String × ℚ)) = [] := rfl
    simp [hA]
  · obtain ⟨f, hf, hfm⟩ := groupMonths_ok l h
    have havgs := c9_monthly_avgs l f hfm
    simp only [SeasonalAnalyzer.analyze_seasonality]
    rw [if_neg hnil, hf]
    simp only [havgs, listAvg, listPopVar]
    split_ifs with h1 h2
    · refine ⟨⟨False, none⟩, rfl, ?_⟩
      have hA : monthlyAvgList l = [] := by
        rw [← havgs, h1]
        rfl
      simp [hA]
    · refine ⟨⟨False, none⟩, rfl, ?_⟩
      simp [h2]
    · refine ⟨_, rfl, ?_⟩
      have hne : monthlyAvgList l ≠ [] := by
        rw [← havgs]
        intro hc
        exact h1 (List.map_eq_nil_iff.mp hc)
      simp [hne, h2]

theorem C9_seasonality_cv_witness :
    (∀ p ∈ ([("2024-01", (3 : ℚ)), ("2024-02", 9)] : List (String × ℚ)),
      ∀ m, monthOf p.1 = some m → 1 ≤ m ∧ m ≤ 12) ∧
    (∃ r, SeasonalAnalyzer.analyze_seasonality
        [("2024-01", (3 : ℚ)), ("2024-02", 9)] = .ok r ∧
      (r.has_seasonality ↔
        (monthlyAvgList [("2024-01", (3 : ℚ)), ("2024-02", 9)] ≠ [] ∧
         listAvg (monthlyAvgList [("2024-01", (3 : ℚ)), ("2024-02", 9)]) ≠ 0 ∧
         Real.sqrt ((listPopVar (monthlyAvgList [("2024-01", (3 : ℚ)), ("2024-02", 9)]) : ℚ) : ℝ) /
           ((listAvg (monthlyAvgList [("2024-01", (3 : ℚ)), ("2024-02", 9)]) : ℚ) : ℝ) > 0.2))) := by
  have hh : ∀ p ∈ ([("2024-01", (3 : ℚ)), ("2024-02", 9)] : List (String × ℚ)),
      ∀ m, monthOf p.1 = some m → 1 ≤ m ∧ m ≤ 12 := by
    intro p hp m hm
    rcases List.mem_cons.mp hp with h1 | h1
    · rw [h1] at hm
      rw [show monthOf "2024-01" = some 1 from by decide] at hm
      injection hm with hmeq
      subst hmeq
      exact ⟨by norm_num, by norm_num⟩
    · rcases List.mem_cons.mp h1 with h2 | h2
      · rw [h2] at hm
        rw [show monthOf "2024-02" = some 2 from by decide] at hm
        injection hm with hmeq
        subst hmeq
        exact ⟨by norm_num, by norm_num⟩
      · simp at h2
  exact ⟨hh, C9_seasonality_cv _ hh⟩
